import Mathlib

/-!
# Verification of the espresso-tracker data layer

A shallow embedding of the repository's core (`database.py` and the listing /
entry routes of `app.py`) and proofs of the specification's claims about it.

Modelling conventions:
* The SQLite store is a `Store` record: schema flags (which tables exist,
  whether `espresso_entry` has the `user_id` column, which indexes exist),
  the row lists of both tables, and the AUTOINCREMENT sequences.
* `espresso_entry.user_id` is stored as `Option Nat`: `none` models SQL NULL
  (possible only in the pre-migration legacy layout; after `init_db` the
  column is NOT NULL and every row carries `some _`).
* SQL `REAL` weights are modelled as exact rationals `ℚ`; Python's
  `round(x, 2)` is round-half-to-even on the exact value.
* Timestamps (`CURRENT_TIMESTAMP`) are `Nat` values supplied by the caller,
  since wall-clock time is an external input.
* Python exceptions (`PermissionError`, the `ValueError` for a duplicate
  email) become `Except DbError`; a raised exception commits nothing, so the
  store is unchanged on the `.error` path.
* The password-hashing collaborator (werkzeug's
  `generate_password_hash` / `check_password_hash`) is not part of this
  repository; it is modelled from its interface contract (a one-way pair
  with `check (generate p) q = (p = q)`) by tagging the password, which is
  exactly the contract the spec assigns to the external collaborator.
-/

set_option autoImplicit false

namespace Espresso

/-- A row of the `user` table. -/
structure UserRow where
  id : Nat
  email : String
  password_hash : String
  created_at : Nat
  deriving Repr, DecidableEq

/-- A row of the `espresso_entry` table.  `user_id` is `Option Nat` because a
legacy (pre-migration) table lacks the column, which reads back as NULL; after
`init_db` it is NOT NULL. -/
structure EntryRow where
  id : Nat
  user_id : Option Nat
  coffee : String
  grinder_setting : String
  input_weight : ℚ
  output_weight : ℚ
  taste_comment : String
  created_at : Nat
  deriving Repr, DecidableEq

/-- The SQLite database state: schema flags, rows, and AUTOINCREMENT
sequences. -/
structure Store where
  userTable : Bool
  entryTable : Bool
  /-- meaningful only when `entryTable` is set: the legacy layout lacks it -/
  entryHasUserId : Bool
  users : List UserRow
  entries : List EntryRow
  idxUserId : Bool
  idxCoffee : Bool
  idxEmail : Bool
  userSeq : Nat
  entrySeq : Nat
  deriving Repr, DecidableEq

/-- Domain errors raised by the data layer: `notOwner` is the
`PermissionError` of `update_entry`/`delete_entry`, `duplicateEmail` the
`ValueError("Email already exists")` of `create_user`. -/
inductive DbError where
  | notOwner
  | duplicateEmail
  deriving Repr, DecidableEq

/-! ## Extraction ratio (`database.calculate_extraction_ratio`) -/

/-- Round-half-to-even to an integer, Python's `round` semantics on the exact
rational value.  With `f = ⌊q⌋` and remainder `r = num - f·den` (so the
fractional part is `r/den`), the comparisons of `r/den` against `1/2` are done
on integers so that the definition is kernel-reducible. -/
def roundHalfEven (q : ℚ) : ℤ :=
  let d : ℤ := (q.den : ℤ)
  let f : ℤ := Int.fdiv q.num d
  let r : ℤ := q.num - f * d
  if 2 * r < d then f
  else if d < 2 * r then f + 1
  else if f % 2 = 0 then f else f + 1

/-- Python's `round(x, 2)`: round-half-to-even at two decimal places. -/
def round2 (x : ℚ) : ℚ :=
  (roundHalfEven (100 * x) : ℚ) / 100

/-- `database.calculate_extraction_ratio`: `0.0` when `input_weight == 0`,
else `round(output_weight / input_weight, 2)`. -/
def calculate_extraction_ratio (input_weight output_weight : ℚ) : ℚ :=
  if input_weight = 0 then 0
  else round2 (output_weight / input_weight)

example : calculate_extraction_ratio 18 36 = 2 := by
  norm_num [calculate_extraction_ratio, round2, roundHalfEven, Int.fdiv]
example : calculate_extraction_ratio 0 36 = 0 := by
  norm_num [calculate_extraction_ratio]
example : calculate_extraction_ratio 18 63 = 35/10 := by
  norm_num [calculate_extraction_ratio, round2, roundHalfEven, Int.fdiv]
example : round2 (1/3) = 33/100 := by norm_num [round2, roundHalfEven, Int.fdiv]
example : round2 (1/8) = 12/100 := by norm_num [round2, roundHalfEven, Int.fdiv]
example : round2 (3/8) = 38/100 := by norm_num [round2, roundHalfEven, Int.fdiv]

/-! ## Password hashing collaborator

`werkzeug.security.generate_password_hash` / `check_password_hash` are an
external library, not code of this repository.  Modelled from the spec:
"one-way salted hash + verify pair" whose verification succeeds exactly for
the hashed password; the model tags the password, which realises that
contract (`check (generate p) q = (p = q)`). -/

/-- Modelled from the spec: the external hashing collaborator's hash
function. -/
def generate_password_hash (password : String) : String :=
  "pbkdf2:" ++ password

/-- Modelled from the spec: the external hashing collaborator's verify
function. -/
def check_password_hash (pwhash candidate : String) : Bool :=
  pwhash == generate_password_hash candidate

/-! ## Schema / migration step (`database.init_db`) -/

/-- The sentinel user inserted by the legacy migration
(`INSERT OR IGNORE INTO user (id, email, password_hash) VALUES (1, ...)`).
Its `created_at` takes the column default. -/
def anonymousUser : UserRow :=
  { id := 1, email := "anonymous@system.local",
    password_hash := generate_password_hash "migration", created_at := 0 }

/-- `CREATE TABLE IF NOT EXISTS user (...)`. -/
def createUserTable (s : Store) : Store :=
  if s.userTable then s
  else { s with userTable := true, users := [], userSeq := 1 }

/-- `CREATE TABLE IF NOT EXISTS espresso_entry (...)` — a freshly created
table already has the `user_id` column. -/
def createEntryTable (s : Store) : Store :=
  if s.entryTable then s
  else { s with entryTable := true, entryHasUserId := true,
                entries := [], entrySeq := 1 }

/-- The legacy migration of `init_db`: triggered when
`SELECT user_id FROM espresso_entry` fails, it inserts the sentinel user
(`INSERT OR IGNORE`, skipped when the id or the email already exists), adds
the `user_id` column with default 1, backfills NULLs to 1 and rebuilds the
table so the column is NOT NULL (the `COALESCE(user_id, 1)` copy). -/
def migrateLegacy (s : Store) : Store :=
  if s.entryHasUserId then s
  else
    let s1 :=
      if s.users.any (fun u => u.id == 1 || u.email == anonymousUser.email)
      then s
      else { s with users := s.users ++ [anonymousUser],
                    userSeq := max s.userSeq 2 }
    { s1 with
      entries := s1.entries.map (fun e => { e with user_id := some (e.user_id.getD 1) }),
      entryHasUserId := true }

/-- The three `CREATE INDEX IF NOT EXISTS` statements. -/
def createIndexes (s : Store) : Store :=
  { s with idxUserId := true, idxCoffee := true, idxEmail := true }

/-- `database.init_db`: create the tables if absent, run the legacy
migration if the `user_id` column is missing, create the indexes. -/
def init_db (s : Store) : Store :=
  createIndexes (migrateLegacy (createEntryTable (createUserTable s)))

/-! ## Entry domain (`database.add_entry` … `delete_entry`) -/

/-- `database.add_entry`: INSERT a new row; `id` is the AUTOINCREMENT value,
`created_at` the current timestamp (an external input `now`). -/
def add_entry (s : Store) (user_id : Nat) (coffee grinder_setting : String)
    (input_weight output_weight : ℚ) (taste_comment : String) (now : Nat) :
    Nat × Store :=
  let entry_id := s.entrySeq
  (entry_id,
    { s with
      entries := s.entries ++
        [{ id := entry_id, user_id := some user_id, coffee := coffee,
           grinder_setting := grinder_setting, input_weight := input_weight,
           output_weight := output_weight, taste_comment := taste_comment,
           created_at := now }],
      entrySeq := s.entrySeq + 1 })

/-- `database.get_entry_by_id`: `SELECT * FROM espresso_entry WHERE id = ?`
(`id` is the primary key, so `fetchone` is the first match). -/
def get_entry_by_id (s : Store) (entry_id : Nat) : Option EntryRow :=
  s.entries.find? (fun e => e.id == entry_id)

/-- SQL `e.user_id = ?` under three-valued logic: a NULL operand makes the
comparison unknown, which a WHERE clause treats as not true. -/
def sqlEqId : Option Nat → Nat → Bool
  | none, _ => false
  | some u, v => u == v

/-- SQL `e.user_id != ?` under three-valued logic. -/
def sqlNeId : Option Nat → Nat → Bool
  | none, _ => false
  | some u, v => u != v

/-- A row as returned by the listing queries: `SELECT e.*, u.email as
user_email` with `LEFT JOIN user u ON e.user_id = u.id`. -/
structure EntryView where
  id : Nat
  user_id : Option Nat
  coffee : String
  grinder_setting : String
  input_weight : ℚ
  output_weight : ℚ
  taste_comment : String
  created_at : Nat
  user_email : Option String
  deriving Repr, DecidableEq

/-- The LEFT JOIN of one entry row against the `user` table: the email of
the matching user, NULL when `user_id` is NULL or matches no user. -/
def leftJoinEmail (users : List UserRow) (e : EntryRow) : EntryView :=
  { id := e.id, user_id := e.user_id, coffee := e.coffee,
    grinder_setting := e.grinder_setting, input_weight := e.input_weight,
    output_weight := e.output_weight, taste_comment := e.taste_comment,
    created_at := e.created_at,
    user_email := e.user_id.bind (fun u =>
      (users.find? (fun x => x.id == u)).map (fun x => x.email)) }

/-- Insertion step of the deterministic model of
`ORDER BY e.created_at DESC` (SQL fixes only the key order; tie order is the
engine's choice, modelled deterministically). -/
def insertByCreatedDesc (e : EntryView) : List EntryView → List EntryView
  | [] => [e]
  | x :: xs =>
    if e.created_at ≤ x.created_at then x :: insertByCreatedDesc e xs
    else e :: x :: xs

/-- Deterministic model of `ORDER BY e.created_at DESC`. -/
def sortByCreatedDesc : List EntryView → List EntryView
  | [] => []
  | x :: xs => insertByCreatedDesc x (sortByCreatedDesc xs)

/-- Python truthiness of the optional `user_id` argument (`if user_id:`
is false both for `None` and for `0`). -/
def optTruthy : Option Nat → Bool
  | none => false
  | some n => n != 0

/-- `database.get_all_entries`: when `user_id` is truthy the WHERE clause is
`e.user_id = ? OR e.user_id != ?`; otherwise no WHERE clause.  Both branches
left-join the user email and order by `created_at DESC`. -/
def get_all_entries (s : Store) (user_id : Option Nat) : List EntryView :=
  match user_id with
  | some uid =>
    if uid != 0 then
      sortByCreatedDesc
        ((s.entries.filter (fun e => sqlEqId e.user_id uid || sqlNeId e.user_id uid)).map
          (leftJoinEmail s.users))
    else
      sortByCreatedDesc (s.entries.map (leftJoinEmail s.users))
  | none =>
    sortByCreatedDesc (s.entries.map (leftJoinEmail s.users))

/-- `database.get_entries_by_coffee`: same as `get_all_entries` with the
additional conjunct `e.coffee = ?`. -/
def get_entries_by_coffee (s : Store) (coffee_name : String)
    (user_id : Option Nat) : List EntryView :=
  match user_id with
  | some uid =>
    if uid != 0 then
      sortByCreatedDesc
        ((s.entries.filter (fun e =>
            e.coffee == coffee_name &&
              (sqlEqId e.user_id uid || sqlNeId e.user_id uid))).map
          (leftJoinEmail s.users))
    else
      sortByCreatedDesc
        ((s.entries.filter (fun e => e.coffee == coffee_name)).map
          (leftJoinEmail s.users))
  | none =>
    sortByCreatedDesc
      ((s.entries.filter (fun e => e.coffee == coffee_name)).map
        (leftJoinEmail s.users))

/-! ## Account domain (`database.create_user` … `update_user_password`) -/

/-- `database.create_user`: hash the password and INSERT; the UNIQUE
constraint on `email` (SQLite's default BINARY collation, i.e. exact string
comparison) turns into `DbError.duplicateEmail`
(`ValueError("Email already exists")`). -/
def create_user (s : Store) (email password : String) (now : Nat) :
    Except DbError (Nat × Store) :=
  if s.users.any (fun u => u.email == email) then
    Except.error DbError.duplicateEmail
  else
    let user_id := s.userSeq
    Except.ok (user_id,
      { s with
        users := s.users ++
          [{ id := user_id, email := email,
             password_hash := generate_password_hash password,
             created_at := now }],
        userSeq := s.userSeq + 1 })

/-- `database.get_user_by_email`: `SELECT * FROM user WHERE email = ?`
(exact comparison under the default BINARY collation). -/
def get_user_by_email (s : Store) (email : String) : Option UserRow :=
  s.users.find? (fun u => u.email == email)

/-- `database.get_user_by_id`. -/
def get_user_by_id (s : Store) (user_id : Nat) : Option UserRow :=
  s.users.find? (fun u => u.id == user_id)

/-- `database.verify_password` (the spec's `verify_credentials`). -/
def verify_password (user : UserRow) (password : String) : Bool :=
  check_password_hash user.password_hash password

/-- `database.update_user_password`: re-hash and overwrite the matching
user's `password_hash`. -/
def update_user_password (s : Store) (user_id : Nat) (new_password : String) :
    Store :=
  { s with
    users := s.users.map (fun u =>
      if u.id == user_id
      then { u with password_hash := generate_password_hash new_password }
      else u) }

/-! ## Ownership-checked mutation (`database.update_entry`, `delete_entry`) -/

/-- `database.update_entry`: fetch the row's `user_id`; raise
`PermissionError` (`DbError.notOwner`) when there is no row or its owner is
not the requester (which includes a NULL owner, since in Python
`None != user_id` is true); otherwise
`UPDATE ... WHERE id = ? AND user_id = ?`. -/
def update_entry (s : Store) (entry_id user_id : Nat)
    (coffee grinder_setting : String) (input_weight output_weight : ℚ)
    (taste_comment : String) : Except DbError Store :=
  match s.entries.find? (fun e => e.id == entry_id) with
  | none => Except.error DbError.notOwner
  | some row =>
    if row.user_id == some user_id then
      Except.ok
        { s with
          entries := s.entries.map (fun e =>
            if e.id == entry_id && e.user_id == some user_id then
              { e with coffee := coffee, grinder_setting := grinder_setting,
                       input_weight := input_weight,
                       output_weight := output_weight,
                       taste_comment := taste_comment }
            else e) }
    else Except.error DbError.notOwner

/-- `database.delete_entry`: same ownership check as `update_entry`, then
`DELETE FROM espresso_entry WHERE id = ? AND user_id = ?`. -/
def delete_entry (s : Store) (entry_id user_id : Nat) : Except DbError Store :=
  match s.entries.find? (fun e => e.id == entry_id) with
  | none => Except.error DbError.notOwner
  | some row =>
    if row.user_id == some user_id then
      Except.ok
        { s with
          entries := s.entries.filter (fun e =>
            !(e.id == entry_id && e.user_id == some user_id)) }
    else Except.error DbError.notOwner

/-- The store visible after an operation: a raised exception reaches the
caller before any commit, so on `.error` the store is the original one. -/
def stateAfter (s : Store) : Except DbError Store → Store
  | Except.ok s' => s'
  | Except.error _ => s

/-! ## Presentation-layer assembly (`app.index`, `app.view_entry`) -/

/-- A listing row after the route attaches the computed
`extraction_ratio`. -/
structure EntryVM where
  view : EntryView
  extraction_ratio : ℚ
  deriving Repr, DecidableEq

/-- The route-side augmentation
`entry['extraction_ratio'] = calculate_extraction_ratio(...)`. -/
def attachRatio (e : EntryView) : EntryVM :=
  { view := e,
    extraction_ratio := calculate_extraction_ratio e.input_weight e.output_weight }

/-- What `app.index` hands to the template. -/
structure IndexPage where
  user_entries : List EntryVM
  community_entries : List EntryVM
  deriving Repr, DecidableEq

/-- The partition loop of `app.index`:
`if user_id and entry.get('user_id') == user_id:` sends the row to
`user_entries`, else to `community_entries`, in iteration order, after
attaching the extraction ratio. -/
def splitEntries (user_id : Option Nat) :
    List EntryView → List EntryVM × List EntryVM
  | [] => ([], [])
  | e :: rest =>
    let p := splitEntries user_id rest
    if optTruthy user_id && e.user_id == user_id then
      (attachRatio e :: p.1, p.2)
    else
      (p.1, attachRatio e :: p.2)

/-- `app.index`: list all entries for the viewer (`None` when not
authenticated) and partition them into own and community entries. -/
def index (s : Store) (viewer : Option Nat) : IndexPage :=
  let p := splitEntries viewer (get_all_entries s viewer)
  { user_entries := p.1, community_entries := p.2 }

/-- A single entry as `app.view_entry` presents it: the stored row plus the
computed `extraction_ratio`. -/
structure EntryDetail where
  entry : EntryRow
  extraction_ratio : ℚ
  deriving Repr, DecidableEq

/-- `app.view_entry`: fetch by id (absent row redirects, modelled as
`none`), then attach the computed extraction ratio. -/
def view_entry (s : Store) (entry_id : Nat) : Option EntryDetail :=
  (get_entry_by_id s entry_id).map (fun e =>
    { entry := e,
      extraction_ratio := calculate_extraction_ratio e.input_weight e.output_weight })

/-! ## Concrete data for instantiating the theorems -/

/-- Sample user. -/
def userAlice : UserRow :=
  { id := 1, email := "alice@example.com",
    password_hash := generate_password_hash "hunter2", created_at := 10 }

/-- Sample user. -/
def userBob : UserRow :=
  { id := 2, email := "bob@example.com",
    password_hash := generate_password_hash "swordfish", created_at := 11 }

/-- Sample entry owned by Alice. -/
def entryAlice : EntryRow :=
  { id := 1, user_id := some 1, coffee := "Kenya", grinder_setting := "12",
    input_weight := 18, output_weight := 36, taste_comment := "balanced",
    created_at := 100 }

/-- Sample entry owned by Bob. -/
def entryBob : EntryRow :=
  { id := 2, user_id := some 2, coffee := "Kenya", grinder_setting := "10",
    input_weight := 18, output_weight := 40, taste_comment := "",
    created_at := 101 }

/-- A concrete migrated store: two users, one entry each. -/
def sampleStore : Store :=
  { userTable := true, entryTable := true, entryHasUserId := true,
    users := [userAlice, userBob], entries := [entryAlice, entryBob],
    idxUserId := true, idxCoffee := true, idxEmail := true,
    userSeq := 3, entrySeq := 3 }

/-- The sample store after registering a third user. -/
def sampleStoreCarol : Store :=
  { sampleStore with
    users := sampleStore.users ++
      [{ id := 3, email := "carol@example.com",
         password_hash := generate_password_hash "correct", created_at := 12 }],
    userSeq := 4 }

/-- A store holding one mixed-case email address, reachable only by writing
to the table outside `create_user` (the register route lower-cases first). -/
def mixedCaseStore : Store :=
  { userTable := true, entryTable := true, entryHasUserId := true,
    users := [{ id := 1, email := "Alice@example.com",
                password_hash := generate_password_hash "pw", created_at := 0 }],
    entries := [],
    idxUserId := true, idxCoffee := true, idxEmail := true,
    userSeq := 2, entrySeq := 1 }

/-- ASCII lower-casing of one character (`String.toLower` on the ASCII
emails at hand), used to phrase the claim's case-insensitive comparison. -/
def lowerChar (c : Char) : Char :=
  if c.isUpper then Char.ofNat (c.toNat + 32) else c

/-- Case-insensitive string equality: the claim's "equals e up to letter
case". -/
def eqCaseInsensitive (a b : String) : Bool :=
  a.data.map lowerChar == b.data.map lowerChar

/-! ## Claim theorems -/

/-- C4: for every pair of weights, `calculate_extraction_ratio` equals
`round(output_weight / input_weight, 2)` when the input weight is positive
and equals `0.0` when it is zero; it is a pure total Lean function, so it
never divides by zero. -/
theorem calculate_extraction_ratio_correct (input_weight output_weight : ℚ) :
    (0 < input_weight →
      calculate_extraction_ratio input_weight output_weight
        = round2 (output_weight / input_weight)) ∧
    (input_weight = 0 →
      calculate_extraction_ratio input_weight output_weight = 0) := by
  refine ⟨fun h => ?_, fun h => ?_⟩
  · rw [calculate_extraction_ratio, if_neg (ne_of_gt h)]
  · rw [calculate_extraction_ratio, if_pos h]

/-- Witness for C4 at input weight 18 and output weights 63 and 0. -/
theorem calculate_extraction_ratio_correct_witness :
    (0 < (18 : ℚ) ∧ calculate_extraction_ratio 18 63 = round2 (63 / 18)) ∧
    ((0 : ℚ) = 0 ∧ calculate_extraction_ratio 0 63 = 0) :=
  ⟨⟨by norm_num, (calculate_extraction_ratio_correct 18 63).1 (by norm_num)⟩,
   ⟨rfl, (calculate_extraction_ratio_correct 0 63).2 rfl⟩⟩

/-- C1: when the stored owner of an existing entry differs from the
requester, `update_entry` and `delete_entry` both fail with
`PermissionError` (`DbError.notOwner`) and the store — in particular the
entry row with all its fields — is unchanged, an exception committing
nothing. -/
theorem update_delete_entry_not_owner (s : Store) (entry_id requester : Nat)
    (coffee grinder_setting : String) (iw ow : ℚ) (tc : String)
    (row : EntryRow) (hrow : get_entry_by_id s entry_id = some row)
    (hneq : row.user_id ≠ some requester) :
    update_entry s entry_id requester coffee grinder_setting iw ow tc
        = Except.error DbError.notOwner ∧
    delete_entry s entry_id requester = Except.error DbError.notOwner ∧
    stateAfter s
        (update_entry s entry_id requester coffee grinder_setting iw ow tc)
      = s ∧
    stateAfter s (delete_entry s entry_id requester) = s := by
  have h : s.entries.find? (fun e => e.id == entry_id) = some row := hrow
  have hb : (row.user_id == some requester) = false := by
    simp only [beq_eq_false_iff_ne, ne_eq]
    exact hneq
  have h1 : update_entry s entry_id requester coffee grinder_setting iw ow tc
      = Except.error DbError.notOwner := by
    simp [update_entry, h, hb]
  have h2 : delete_entry s entry_id requester = Except.error DbError.notOwner := by
    simp [delete_entry, h, hb]
  exact ⟨h1, h2, by rw [h1]; rfl, by rw [h2]; rfl⟩

/-- Witness for C1: Bob (id 2) attempts to update and delete Alice's entry
(id 1). -/
theorem update_delete_entry_not_owner_witness :
    (get_entry_by_id sampleStore 1 = some entryAlice ∧
      entryAlice.user_id ≠ some 2) ∧
    update_entry sampleStore 1 2 "Gesha" "9" 17 34 "sour"
        = Except.error DbError.notOwner ∧
    delete_entry sampleStore 1 2 = Except.error DbError.notOwner ∧
    stateAfter sampleStore (update_entry sampleStore 1 2 "Gesha" "9" 17 34 "sour")
      = sampleStore ∧
    stateAfter sampleStore (delete_entry sampleStore 1 2) = sampleStore :=
  ⟨⟨rfl, by decide⟩,
   update_delete_entry_not_owner sampleStore 1 2 "Gesha" "9" 17 34 "sour"
     entryAlice rfl (by decide)⟩

/-- C9: for an entry id absent from the store, `update_entry` and
`delete_entry` raise the very same `DbError.notOwner` (`PermissionError`) as
an ownership mismatch, not an absent-value NotFound, so the caller cannot
tell a missing entry from someone else's entry. -/
theorem update_delete_entry_missing (s : Store) (entry_id requester : Nat)
    (coffee grinder_setting : String) (iw ow : ℚ) (tc : String)
    (habs : get_entry_by_id s entry_id = none) :
    update_entry s entry_id requester coffee grinder_setting iw ow tc
        = Except.error DbError.notOwner ∧
    delete_entry s entry_id requester = Except.error DbError.notOwner := by
  have h : s.entries.find? (fun e => e.id == entry_id) = none := habs
  exact ⟨by simp [update_entry, h], by simp [delete_entry, h]⟩

/-- Witness for C9: entry id 99 does not exist in the sample store. -/
theorem update_delete_entry_missing_witness :
    get_entry_by_id sampleStore 99 = none ∧
    update_entry sampleStore 99 1 "Gesha" "9" 17 34 "sour"
        = Except.error DbError.notOwner ∧
    delete_entry sampleStore 99 1 = Except.error DbError.notOwner :=
  ⟨rfl, update_delete_entry_missing sampleStore 99 1 "Gesha" "9" 17 34 "sour" rfl⟩

/-- C7: a successful owner update overwrites exactly the five mutable
fields of the target row; its `id`, `user_id` and `created_at` are kept (the
record update touches no other field), every other entry row is unchanged,
and so is the rest of the store (`user` table, sequences, schema).  The
`Nodup` hypothesis is the primary-key property of `espresso_entry.id`. -/
theorem update_entry_owner_frame (s : Store) (entry_id requester : Nat)
    (coffee grinder_setting : String) (iw ow : ℚ) (tc : String)
    (row : EntryRow) (hrow : get_entry_by_id s entry_id = some row)
    (hown : row.user_id = some requester)
    (hids : (s.entries.map (fun e => e.id)).Nodup) :
    update_entry s entry_id requester coffee grinder_setting iw ow tc
      = Except.ok
          { s with entries := s.entries.map (fun e =>
              if e.id = entry_id then
                { e with coffee := coffee, grinder_setting := grinder_setting,
                         input_weight := iw, output_weight := ow,
                         taste_comment := tc }
              else e) } := by
  have h : s.entries.find? (fun e => e.id == entry_id) = some row := hrow
  have hmem : row ∈ s.entries := List.mem_of_find?_eq_some h
  have hid : row.id = entry_id := by
    have := List.find?_some h
    simpa using this
  have hb : (row.user_id == some requester) = true := by simp [hown]
  have hmaps : ∀ e ∈ s.entries,
      (if e.id == entry_id && e.user_id == some requester then
        { e with coffee := coffee, grinder_setting := grinder_setting,
                 input_weight := iw, output_weight := ow, taste_comment := tc }
      else e)
      = (if e.id = entry_id then
        { e with coffee := coffee, grinder_setting := grinder_setting,
                 input_weight := iw, output_weight := ow, taste_comment := tc }
      else e) := by
    intro e he
    by_cases hcase : e.id = entry_id
    · have heq : e = row :=
        List.inj_on_of_nodup_map hids he hmem (by rw [hcase, hid])
      subst heq
      simp [hcase, hown]
    · simp [hcase]
  simp only [update_entry, h, hb, if_true]
  exact congrArg Except.ok
    (congrArg (fun l => { s with entries := l }) (List.map_congr_left hmaps))

/-- Witness for C7: Alice (id 1) updates her own entry (id 1) in the
sample store. -/
theorem update_entry_owner_frame_witness :
    (get_entry_by_id sampleStore 1 = some entryAlice ∧
     entryAlice.user_id = some 1 ∧
     (sampleStore.entries.map (fun e => e.id)).Nodup) ∧
    update_entry sampleStore 1 1 "Gesha" "9" 17 34 "sweet"
      = Except.ok
          { sampleStore with entries := sampleStore.entries.map (fun e =>
              if e.id = 1 then
                { e with coffee := "Gesha", grinder_setting := "9",
                         input_weight := 17, output_weight := 34,
                         taste_comment := "sweet" }
              else e) } :=
  ⟨⟨rfl, rfl, by decide⟩,
   update_entry_owner_frame sampleStore 1 1 "Gesha" "9" 17 34 "sweet"
     entryAlice rfl rfl (by decide)⟩

/-- The concrete ratio the C5 scenario computes. -/
theorem extraction_ratio_18_36 : calculate_extraction_ratio 18 36 = 2 := by
  norm_num [calculate_extraction_ratio, round2, roundHalfEven, Int.fdiv]

/-- C5: after `add_entry(owner, "Kenya", input 18, output 36)` returns the
new id, viewing that id yields the stored record with a computed
`extraction_ratio` of 2.0.  The hypothesis is the AUTOINCREMENT invariant
that every existing id is below the next sequence value. -/
theorem add_entry_view_ratio (s : Store) (owner : Nat) (gs tc : String)
    (now : Nat) (hfresh : ∀ e ∈ s.entries, e.id < s.entrySeq) :
    view_entry (add_entry s owner "Kenya" gs 18 36 tc now).2
        (add_entry s owner "Kenya" gs 18 36 tc now).1
      = some { entry := { id := s.entrySeq, user_id := some owner,
                          coffee := "Kenya", grinder_setting := gs,
                          input_weight := 18, output_weight := 36,
                          taste_comment := tc, created_at := now },
               extraction_ratio := 2 } := by
  have hnone : s.entries.find? (fun e => e.id == s.entrySeq) = none := by
    apply List.find?_eq_none.mpr
    intro e he
    simpa using Nat.ne_of_lt (hfresh e he)
  simp only [view_entry, add_entry, get_entry_by_id]
  rw [List.find?_append, hnone]
  simp [extraction_ratio_18_36]

/-- Witness for C5: Alice logs a Kenya shot in the sample store (next
entry id 3). -/
theorem add_entry_view_ratio_witness :
    (∀ e ∈ sampleStore.entries, e.id < sampleStore.entrySeq) ∧
    view_entry (add_entry sampleStore 1 "Kenya" "11" 18 36 "syrupy" 200).2
        (add_entry sampleStore 1 "Kenya" "11" 18 36 "syrupy" 200).1
      = some { entry := { id := sampleStore.entrySeq, user_id := some 1,
                          coffee := "Kenya", grinder_setting := "11",
                          input_weight := 18, output_weight := 36,
                          taste_comment := "syrupy", created_at := 200 },
               extraction_ratio := 2 } :=
  ⟨by decide, add_entry_view_ratio sampleStore 1 "11" "syrupy" 200 (by decide)⟩

/-- The modelled hash function is injective, realising the collaborator
contract that verification succeeds only for the hashed password. -/
theorem generate_password_hash_inj (p q : String) :
    generate_password_hash p = generate_password_hash q ↔ p = q := by
  constructor
  · intro h
    have hd := congrArg String.data h
    simp only [generate_password_hash, String.data_append] at hd
    exact String.ext (List.append_cancel_left hd)
  · intro h
    rw [h]

/-- A record holding the hash of `p` verifies `q` exactly when `q = p`. -/
theorem verify_password_of_hash (p q : String) (u : UserRow)
    (hu : u.password_hash = generate_password_hash p) :
    (verify_password u q = true ↔ q = p) := by
  rw [verify_password, check_password_hash, hu, beq_iff_eq]
  constructor
  · intro h
    exact ((generate_password_hash_inj p q).mp h).symm
  · intro h
    rw [h]

/-- C8: credentials verify exactly the password set last.  After
`create_user(email, p)` the stored record (found again by email) verifies a
candidate `q` iff `q = p`; after `update_password(uid, new_p)` on that store
the record verifies `q` iff `q = new_p`.  The hypothesis `hseq` is the
AUTOINCREMENT invariant on user ids. -/
theorem verify_credentials_exact (s : Store) (email p new_p q : String)
    (now : Nat) (uid : Nat) (s' : Store)
    (hseq : ∀ u ∈ s.users, u.id < s.userSeq)
    (hc : create_user s email p now = Except.ok (uid, s')) :
    (∃ u, get_user_by_email s' email = some u ∧ u.id = uid ∧
        (verify_password u q = true ↔ q = p)) ∧
    (∃ u, get_user_by_id (update_user_password s' uid new_p) uid = some u ∧
        (verify_password u q = true ↔ q = new_p)) := by
  rw [create_user] at hc
  by_cases hdup : s.users.any (fun u => u.email == email) = true
  · rw [if_pos hdup] at hc
    exact absurd hc (by simp)
  · rw [if_neg hdup] at hc
    simp only [Except.ok.injEq, Prod.mk.injEq] at hc
    obtain ⟨huid, hs'⟩ := hc
    subst huid
    subst hs'
    simp only [List.any_eq_true, beq_iff_eq, not_exists, not_and] at hdup
    have hnomail : s.users.find? (fun u => u.email == email) = none := by
      apply List.find?_eq_none.mpr
      intro u hu
      simpa using hdup u hu
    have hnoid : s.users.find? (fun u => u.id == s.userSeq) = none := by
      apply List.find?_eq_none.mpr
      intro u hu
      simpa using Nat.ne_of_lt (hseq u hu)
    refine ⟨⟨{ id := s.userSeq, email := email,
               password_hash := generate_password_hash p, created_at := now },
             ?_, rfl, verify_password_of_hash p q _ rfl⟩, ?_⟩
    · show List.find? _ (_ ++ [_]) = _
      rw [List.find?_append, hnomail]
      simp [List.find?]
    · refine ⟨{ id := s.userSeq, email := email,
                password_hash := generate_password_hash new_p,
                created_at := now },
              ?_, verify_password_of_hash new_p q _ rfl⟩
      show List.find? _ ((_ ++ [_]).map _) = _
      rw [List.find?_map]
      have hpg : ((fun u : UserRow => u.id == s.userSeq) ∘ fun u =>
          if u.id == s.userSeq
          then { u with password_hash := generate_password_hash new_p }
          else u) = fun u : UserRow => u.id == s.userSeq := by
        funext u
        by_cases hci : (u.id == s.userSeq) = true
        · simp [Function.comp, hci]
        · simp [Function.comp, hci]
      rw [hpg, List.find?_append, hnoid]
      simp [List.find?]

/-- Witness for C8: registering Carol in the sample store, then rotating
her password; the wrong candidate "battery" is rejected under both. -/
theorem verify_credentials_exact_witness :
    ((∀ u ∈ sampleStore.users, u.id < sampleStore.userSeq) ∧
      create_user sampleStore "carol@example.com" "correct" 12
        = Except.ok (3, sampleStoreCarol)) ∧
    ((∃ u, get_user_by_email sampleStoreCarol "carol@example.com" = some u ∧
        u.id = 3 ∧ (verify_password u "battery" = true ↔ "battery" = "correct")) ∧
     (∃ u, get_user_by_id (update_user_password sampleStoreCarol 3 "horse") 3
          = some u ∧
        (verify_password u "battery" = true ↔ "battery" = "horse"))) :=
  ⟨⟨by decide, rfl⟩,
   verify_credentials_exact sampleStore "carol@example.com" "correct" "horse"
     "battery" 12 3 sampleStoreCarol (by decide) rfl⟩

/-- C3 as stated is false at this input: the store holds
"Alice@example.com", which equals "alice@example.com" up to letter case,
yet `create_user` with the lower-case spelling succeeds — the UNIQUE
constraint on `email` compares exactly (BINARY collation) — instead of
failing with DuplicateEmail. -/
theorem create_user_case_insensitive_cex :
    (mixedCaseStore.users.any
        (fun u => eqCaseInsensitive u.email "alice@example.com") = true) ∧
    create_user mixedCaseStore "alice@example.com" "pw2" 5
        = Except.ok (2,
            { mixedCaseStore with
              users := mixedCaseStore.users ++
                [{ id := 2, email := "alice@example.com",
                   password_hash := generate_password_hash "pw2",
                   created_at := 5 }],
              userSeq := 3 }) ∧
    create_user mixedCaseStore "alice@example.com" "pw2" 5
        ≠ Except.error DbError.duplicateEmail := by
  have hok : create_user mixedCaseStore "alice@example.com" "pw2" 5
      = Except.ok (2,
          { mixedCaseStore with
            users := mixedCaseStore.users ++
              [{ id := 2, email := "alice@example.com",
                 password_hash := generate_password_hash "pw2",
                 created_at := 5 }],
            userSeq := 3 }) := rfl
  refine ⟨by decide, hok, ?_⟩
  rw [hok]
  simp

/-- C3 amended: the duplicate check of `create_user` is exact, not
case-insensitive (case-insensitivity holds end-to-end only because the
register route lower-cases the email before calling).  `create_user` fails
with DuplicateEmail precisely when a user with the identical email string
already exists; with no exact match it succeeds and a subsequent lookup by
that email returns the user id it returned. -/
theorem create_user_exact_duplicate (s : Store) (email password : String)
    (now : Nat) :
    ((∃ u ∈ s.users, u.email = email) →
      create_user s email password now = Except.error DbError.duplicateEmail) ∧
    ((∀ u ∈ s.users, u.email ≠ email) →
      create_user s email password now
          = Except.ok (s.userSeq,
              { s with
                users := s.users ++
                  [{ id := s.userSeq, email := email,
                     password_hash := generate_password_hash password,
                     created_at := now }],
                userSeq := s.userSeq + 1 }) ∧
      get_user_by_email
          { s with
            users := s.users ++
              [{ id := s.userSeq, email := email,
                 password_hash := generate_password_hash password,
                 created_at := now }],
            userSeq := s.userSeq + 1 } email
        = some { id := s.userSeq, email := email,
                 password_hash := generate_password_hash password,
                 created_at := now }) := by
  constructor
  · rintro ⟨u, hu, he⟩
    have hany : s.users.any (fun v => v.email == email) = true :=
      List.any_eq_true.mpr ⟨u, hu, by simp [he]⟩
    simp [create_user, hany]
  · intro hno
    have hany : ¬ (s.users.any (fun v => v.email == email) = true) := by
      simp only [List.any_eq_true, beq_iff_eq, not_exists, not_and]
      exact hno
    refine ⟨by rw [create_user, if_neg hany], ?_⟩
    have hnone : s.users.find? (fun v => v.email == email) = none := by
      apply List.find?_eq_none.mpr
      intro u hu
      simpa using hno u hu
    show List.find? _ (_ ++ [_]) = _
    rw [List.find?_append, hnone]
    simp [List.find?]

/-- Witness for the amended C3: in the sample store,
"alice@example.com" is taken (duplicate rejected) and
"carol@example.com" is fresh (created, then found by email with the
returned id). -/
theorem create_user_exact_duplicate_witness :
    ((∃ u ∈ sampleStore.users, u.email = "alice@example.com") ∧
      create_user sampleStore "alice@example.com" "x" 7
        = Except.error DbError.duplicateEmail) ∧
    ((∀ u ∈ sampleStore.users, u.email ≠ "dave@example.com") ∧
      (create_user sampleStore "dave@example.com" "x" 7
          = Except.ok (sampleStore.userSeq,
              { sampleStore with
                users := sampleStore.users ++
                  [{ id := sampleStore.userSeq, email := "dave@example.com",
                     password_hash := generate_password_hash "x",
                     created_at := 7 }],
                userSeq := sampleStore.userSeq + 1 }) ∧
        get_user_by_email
            { sampleStore with
              users := sampleStore.users ++
                [{ id := sampleStore.userSeq, email := "dave@example.com",
                   password_hash := generate_password_hash "x",
                   created_at := 7 }],
              userSeq := sampleStore.userSeq + 1 } "dave@example.com"
          = some { id := sampleStore.userSeq, email := "dave@example.com",
                   password_hash := generate_password_hash "x",
                   created_at := 7 })) :=
  ⟨⟨⟨userAlice, by decide, rfl⟩,
    (create_user_exact_duplicate sampleStore "alice@example.com" "x" 7).1
      ⟨userAlice, by decide, rfl⟩⟩,
   ⟨by decide,
    (create_user_exact_duplicate sampleStore "dave@example.com" "x" 7).2
      (by decide)⟩⟩

/-- After `CREATE TABLE IF NOT EXISTS user`, the table exists. -/
theorem createUserTable_userTable (s : Store) :
    (createUserTable s).userTable = true := by
  rw [createUserTable]
  split_ifs with h
  · exact h
  · rfl

/-- `CREATE TABLE IF NOT EXISTS espresso_entry` leaves the user table
flag alone. -/
theorem createEntryTable_userTable (s : Store) :
    (createEntryTable s).userTable = s.userTable := by
  rw [createEntryTable]
  split_ifs <;> rfl

/-- After `CREATE TABLE IF NOT EXISTS espresso_entry`, the table exists. -/
theorem createEntryTable_entryTable (s : Store) :
    (createEntryTable s).entryTable = true := by
  rw [createEntryTable]
  split_ifs with h
  · exact h
  · rfl

/-- A freshly created entry table carries the `user_id` column; an existing
one keeps whatever layout it had. -/
theorem createEntryTable_entryHasUserId (s : Store) :
    (createEntryTable s).entryHasUserId = (s.entryTable → s.entryHasUserId) := by
  rw [createEntryTable]
  split_ifs with h <;> simp [h]

/-- The legacy migration leaves the user table flag alone. -/
theorem migrateLegacy_userTable (s : Store) :
    (migrateLegacy s).userTable = s.userTable := by
  rw [migrateLegacy]
  split_ifs <;> rfl

/-- The legacy migration leaves the entry table flag alone. -/
theorem migrateLegacy_entryTable (s : Store) :
    (migrateLegacy s).entryTable = s.entryTable := by
  rw [migrateLegacy]
  split_ifs <;> rfl

/-- After the legacy migration, the `user_id` column exists. -/
theorem migrateLegacy_entryHasUserId (s : Store) :
    (migrateLegacy s).entryHasUserId = true := by
  rw [migrateLegacy]
  split_ifs with h
  · exact h
  all_goals rfl

/-- Index creation does not touch the user table flag. -/
theorem createIndexes_userTable (s : Store) :
    (createIndexes s).userTable = s.userTable := rfl

/-- Index creation does not touch the entry table flag. -/
theorem createIndexes_entryTable (s : Store) :
    (createIndexes s).entryTable = s.entryTable := rfl

/-- Index creation does not touch the column layout. -/
theorem createIndexes_entryHasUserId (s : Store) :
    (createIndexes s).entryHasUserId = s.entryHasUserId := rfl

/-- `init_db` on a state that already has both tables, the `user_id`
column and all three indexes is the identity. -/
theorem init_db_fixpoint (t : Store) (h1 : t.userTable = true)
    (h2 : t.entryTable = true) (h3 : t.entryHasUserId = true)
    (h4 : t.idxUserId = true) (h5 : t.idxCoffee = true)
    (h6 : t.idxEmail = true) : init_db t = t := by
  obtain ⟨ut, et, hu, us, es, i1, i2, i3, usq, esq⟩ := t
  dsimp only at h1 h2 h3 h4 h5 h6
  subst h1
  subst h2
  subst h3
  subst h4
  subst h5
  subst h6
  rfl

/-- C6: `init_db` is idempotent: a second run finds both tables present,
finds the `user_id` column (so the legacy migration is skipped) and finds
the indexes present, leaving the schema and every table's rows exactly as
after the first run. -/
theorem init_db_idempotent (s : Store) : init_db (init_db s) = init_db s := by
  apply init_db_fixpoint
  · rw [init_db, createIndexes_userTable, migrateLegacy_userTable,
      createEntryTable_userTable, createUserTable_userTable]
  · rw [init_db, createIndexes_entryTable, migrateLegacy_entryTable,
      createEntryTable_entryTable]
  · rw [init_db, createIndexes_entryHasUserId, migrateLegacy_entryHasUserId]
  · rfl
  · rfl
  · rfl

/-- For a non-NULL `user_id`, the authenticated branch's filter
`user_id = ? OR user_id != ?` is a tautology. -/
theorem sql_self_or_not_self (uid : Nat) (e : EntryRow)
    (h : e.user_id ≠ none) :
    (sqlEqId e.user_id uid || sqlNeId e.user_id uid) = true := by
  cases hu : e.user_id with
  | none => exact absurd hu h
  | some u =>
    simp only [sqlEqId, sqlNeId, bne]
    exact Bool.or_not_self _

/-- C10: supplying a viewer identity never changes which rows the listing
queries return: for every store whose entries all carry a NOT NULL
`user_id` (the migrated schema guarantees this), `get_all_entries` and
`get_entries_by_coffee` produce identical row sequences for `some uid` and
for `None` — the filter `user_id = ? OR user_id != ?` excludes nothing. -/
theorem viewer_identity_irrelevant (s : Store) (uid : Nat)
    (coffee_name : String)
    (hnn : ∀ e ∈ s.entries, e.user_id ≠ none) :
    get_all_entries s (some uid) = get_all_entries s none ∧
    get_entries_by_coffee s coffee_name (some uid)
      = get_entries_by_coffee s coffee_name none := by
  by_cases h0 : uid = 0
  · subst h0
    exact ⟨rfl, rfl⟩
  · have huid : (uid != 0) = true := by simp [h0]
    constructor
    · simp only [get_all_entries, huid, if_true]
      have hfe : s.entries.filter
          (fun e => sqlEqId e.user_id uid || sqlNeId e.user_id uid)
          = s.entries :=
        List.filter_eq_self.mpr (fun e he => sql_self_or_not_self uid e (hnn e he))
      rw [hfe]
    · simp only [get_entries_by_coffee, huid, if_true]
      have hfe : s.entries.filter
          (fun e => e.coffee == coffee_name &&
            (sqlEqId e.user_id uid || sqlNeId e.user_id uid))
          = s.entries.filter (fun e => e.coffee == coffee_name) := by
        apply List.filter_congr
        intro e he
        rw [sql_self_or_not_self uid e (hnn e he), Bool.and_true]
      rw [hfe]

/-- The partition loop of `app.index` splits the listed rows by its
condition, keeping order, attaching the ratio to every row. -/
theorem splitEntries_spec (user_id : Option Nat) (l : List EntryView) :
    splitEntries user_id l
      = ((l.filter (fun e => optTruthy user_id && e.user_id == user_id)).map
           attachRatio,
         (l.filter (fun e => !(optTruthy user_id && e.user_id == user_id))).map
           attachRatio) := by
  induction l with
  | nil => rfl
  | cons e rest ih =>
    rw [splitEntries, ih]
    cases ht : optTruthy user_id with
    | false => simp [List.filter_cons, ht]
    | true =>
      cases he : (e.user_id == user_id) with
      | true => simp [List.filter_cons, ht, he]
      | false => simp [List.filter_cons, ht, he]

/-- Inserting into the sorted-descending list adds one element. -/
theorem insertByCreatedDesc_length (e : EntryView) (l : List EntryView) :
    (insertByCreatedDesc e l).length = l.length + 1 := by
  induction l with
  | nil => rfl
  | cons x xs ih =>
    rw [insertByCreatedDesc]
    split_ifs
    · simp [ih]
    · simp

/-- Ordering preserves the number of rows. -/
theorem sortByCreatedDesc_length (l : List EntryView) :
    (sortByCreatedDesc l).length = l.length := by
  induction l with
  | nil => rfl
  | cons x xs ih =>
    rw [sortByCreatedDesc, insertByCreatedDesc_length, ih]
    exact (List.length_cons x xs).symm

/-- With a NOT NULL store and a truthy viewer, the authenticated listing
returns one view row per stored entry. -/
theorem get_all_entries_length (s : Store) (uid : Nat)
    (huid : (uid != 0) = true)
    (hnn : ∀ e ∈ s.entries, e.user_id ≠ none) :
    (get_all_entries s (some uid)).length = s.entries.length := by
  simp only [get_all_entries]
  rw [if_pos huid, sortByCreatedDesc_length, List.length_map,
    List.filter_eq_self.mpr (fun e he => sql_self_or_not_self uid e (hnn e he))]

/-- C2: the index page partitions the listing exactly by ownership.  For an
authenticated viewer (a store-assigned id, hence positive): `user_entries`
is precisely the listed rows whose `user_id` equals the viewer's and
`community_entries` precisely those whose `user_id` differs, in listing
order, and together they carry every stored entry exactly once (their
lengths sum to the number of stored rows).  For an unauthenticated viewer:
`user_entries` is empty and every listed row is in `community_entries`. -/
theorem index_partition (s : Store) (uid : Nat) (h0 : 0 < uid)
    (hnn : ∀ e ∈ s.entries, e.user_id ≠ none) :
    ((index s (some uid)).user_entries
        = ((get_all_entries s (some uid)).filter
            (fun e => e.user_id == some uid)).map attachRatio
      ∧ (index s (some uid)).community_entries
        = ((get_all_entries s (some uid)).filter
            (fun e => !(e.user_id == some uid))).map attachRatio
      ∧ (index s (some uid)).user_entries.length
          + (index s (some uid)).community_entries.length
          = s.entries.length)
    ∧ ((index s none).user_entries = []
      ∧ (index s none).community_entries
          = (get_all_entries s none).map attachRatio) := by
  have huid : (uid != 0) = true := by
    simp only [bne_iff_ne, ne_eq]
    exact Nat.pos_iff_ne_zero.mp h0
  have htru : optTruthy (some uid) = true := huid
  have h1 : (index s (some uid)).user_entries
      = ((get_all_entries s (some uid)).filter
          (fun e => e.user_id == some uid)).map attachRatio := by
    show (splitEntries (some uid) (get_all_entries s (some uid))).1 = _
    rw [splitEntries_spec]
    simp only [htru, Bool.true_and]
  have h2 : (index s (some uid)).community_entries
      = ((get_all_entries s (some uid)).filter
          (fun e => !(e.user_id == some uid))).map attachRatio := by
    show (splitEntries (some uid) (get_all_entries s (some uid))).2 = _
    rw [splitEntries_spec]
    simp only [htru, Bool.true_and]
  refine ⟨⟨h1, h2, ?_⟩, ?_, ?_⟩
  · rw [h1, h2, List.length_map, List.length_map]
    have hperm :=
      (List.filter_append_perm (fun e => e.user_id == some uid)
        (get_all_entries s (some uid))).length_eq
    rw [List.length_append] at hperm
    rw [hperm]
    exact get_all_entries_length s uid huid hnn
  · show (splitEntries none (get_all_entries s none)).1 = _
    rw [splitEntries_spec]
    simp [optTruthy]
  · show (splitEntries none (get_all_entries s none)).2 = _
    rw [splitEntries_spec]
    simp [optTruthy]

/-- Witness for C2: the sample store viewed by Bob (id 2) and by an
anonymous visitor. -/
theorem index_partition_witness :
    (0 < 2 ∧ (∀ e ∈ sampleStore.entries, e.user_id ≠ none)) ∧
    ((index sampleStore (some 2)).user_entries
        = ((get_all_entries sampleStore (some 2)).filter
            (fun e => e.user_id == some 2)).map attachRatio
      ∧ (index sampleStore (some 2)).community_entries
        = ((get_all_entries sampleStore (some 2)).filter
            (fun e => !(e.user_id == some 2))).map attachRatio
      ∧ (index sampleStore (some 2)).user_entries.length
          + (index sampleStore (some 2)).community_entries.length
          = sampleStore.entries.length)
    ∧ ((index sampleStore none).user_entries = []
      ∧ (index sampleStore none).community_entries
          = (get_all_entries sampleStore none).map attachRatio) :=
  ⟨⟨by decide, by decide⟩,
   index_partition sampleStore 2 (by decide) (by decide)⟩

/-- Witness for C10 in the sample store with viewer id 2 and coffee
"Kenya". -/
theorem viewer_identity_irrelevant_witness :
    (∀ e ∈ sampleStore.entries, e.user_id ≠ none) ∧
    get_all_entries sampleStore (some 2) = get_all_entries sampleStore none ∧
    get_entries_by_coffee sampleStore "Kenya" (some 2)
      = get_entries_by_coffee sampleStore "Kenya" none :=
  ⟨by decide, viewer_identity_irrelevant sampleStore 2 "Kenya" (by decide)⟩

end Espresso
